import Mathlib

set_option maxRecDepth 100000

/-!
Verification of the network-connectivity orchestrator in
`src/blink_led/bak_code/socket_connection.rs`: the WiFi association task
(`connection_task`), the link readiness gate, and the HTTP request/response
client loop in `main`.  Stateful Rust code is embedded as pure Lean functions
over explicit oracle inputs (results of the fallible radio/socket operations),
producing action traces that record the observable behaviour of each loop.
-/

namespace EspRust

/-! ## Response read loop (socket_connection.rs, lines 220–241)

`main` declares `let mut buf = [0u8; 1024];` and accumulates socket reads
into `buf[total_read..]` until the server closes the connection, a read
error occurs, or `total_read >= buf.len() - 1`.  Each call
`socket.read(&mut buf[total_read..])` delivers at most the remaining slice
length; the server side of each read is the oracle (`ReadEvent`). -/

/-- Capacity of the response buffer, `let mut buf = [0u8; 1024]` (line 220). -/
def capacity : Nat := 1024

/-- Outcome of one `socket.read` call, as decided by the remote server:
an orderly close (`Ok(0)`), a chunk of pending data (the read delivers at
most the remaining slice length of it), or a read error. -/
inductive ReadEvent where
  | closed
  | data (chunk : List Nat)
  | err
deriving DecidableEq, Repr

/-- Why the read loop stopped: the `Ok(0)` branch, the `Err` branch, the
`total_read >= buf.len() - 1` break, or the oracle ran out of events (the
socket would block; no further state change happens). -/
inductive StopReason where
  | closedStop
  | errStop
  | full
  | outOfEvents
deriving DecidableEq, Repr

/-- Writing `delivered` into `buf` starting at offset `total`: the effect of
`socket.read(&mut buf[total_read..])` returning `delivered.length` bytes. -/
def writeAt (buf : List Nat) (total : Nat) (delivered : List Nat) : List Nat :=
  buf.take total ++ delivered ++ buf.drop (total + delivered.length)

/-- The read loop of lines 223–241.  `data chunk` delivers
`chunk.take (capacity - total)` bytes (the read cannot exceed the slice
`buf[total_read..]`); an empty delivery is the `Ok(0)` close branch.
After a successful read the loop breaks when `capacity - 1 ≤ total_read`. -/
def readLoopR (buf : List Nat) (total : Nat) :
    List ReadEvent → List Nat × Nat × StopReason
  | [] => (buf, total, .outOfEvents)
  | .closed :: _ => (buf, total, .closedStop)
  | .err :: _ => (buf, total, .errStop)
  | .data chunk :: rest =>
      if (chunk.take (capacity - total)).isEmpty then
        (buf, total, .closedStop)
      else if capacity - 1 ≤ total + (chunk.take (capacity - total)).length then
        (writeAt buf total (chunk.take (capacity - total)),
         total + (chunk.take (capacity - total)).length, .full)
      else
        readLoopR (writeAt buf total (chunk.take (capacity - total)))
          (total + (chunk.take (capacity - total)).length) rest

/-- One full run of the read loop from the freshly initialised buffer
`[0u8; 1024]` and `total_read = 0` (lines 220–221). -/
def readResult (events : List ReadEvent) : List Nat × Nat × StopReason :=
  readLoopR (List.replicate capacity 0) 0 events

/-- The bytes the read loop delivers into the buffer for a given oracle,
mirroring the consumption pattern of `readLoopR` but independent of the
buffer contents. -/
def deliveredBytes (total : Nat) : List ReadEvent → List Nat
  | [] => []
  | .closed :: _ => []
  | .err :: _ => []
  | .data chunk :: rest =>
      if (chunk.take (capacity - total)).isEmpty then []
      else if capacity - 1 ≤ total + (chunk.take (capacity - total)).length then
        chunk.take (capacity - total)
      else
        chunk.take (capacity - total) ++
          deliveredBytes (total + (chunk.take (capacity - total)).length) rest

/-! ## Response printing (socket_connection.rs, lines 244–252)

If `total_read > 0`, `core::str::from_utf8(&buf[..total_read])` is tried; on
`Ok` the text is printed, on `Err` the raw bytes are printed.  We model
`from_utf8` by a UTF-8 validity automaton: a byte list is accepted exactly
when it is a well-formed UTF-8 encoding (RFC 3629, the check `from_utf8`
performs). -/

/-- UTF-8 automaton step for a leading byte: `none` means invalid; otherwise
the continuation requirement `(lo, hi, k)`: the next byte must lie in
`[lo, hi]` and is followed by `k` further continuation bytes in `[80, BF]`;
an ASCII byte finishes a scalar immediately (`some none`). -/
def u8next (b : Nat) : Option (Option (Nat × Nat × Nat)) :=
  if b ≤ 0x7F then some none
  else if 0xC2 ≤ b ∧ b ≤ 0xDF then some (some (0x80, 0xBF, 0))
  else if b = 0xE0 then some (some (0xA0, 0xBF, 1))
  else if (0xE1 ≤ b ∧ b ≤ 0xEC) ∨ (0xEE ≤ b ∧ b ≤ 0xEF) then some (some (0x80, 0xBF, 1))
  else if b = 0xED then some (some (0x80, 0x9F, 1))
  else if b = 0xF0 then some (some (0x90, 0xBF, 2))
  else if 0xF1 ≤ b ∧ b ≤ 0xF3 then some (some (0x80, 0xBF, 2))
  else if b = 0xF4 then some (some (0x80, 0x8F, 2))
  else none

/-- One transition of the UTF-8 automaton: the outer `none` is the sink
state for invalid input; `some none` expects a leading byte. -/
def u8step : Option (Option (Nat × Nat × Nat)) → Nat → Option (Option (Nat × Nat × Nat))
  | none, _ => none
  | some none, b => u8next b
  | some (some (lo, hi, k)), b =>
      if lo ≤ b ∧ b ≤ hi then
        some (if k = 0 then none else some (0x80, 0xBF, k - 1))
      else none

/-- Validity check of `core::str::from_utf8`: accepted iff the automaton
ends at a scalar boundary with no invalid byte encountered. -/
def validUtf8 (bytes : List Nat) : Bool :=
  match bytes.foldl u8step (some none) with
  | some none => true
  | _ => false

/-- What the response-printing block emits: the decoded text, the raw byte
dump of the `else` branch, or nothing when `total_read == 0`. -/
inductive Report where
  | text (bytes : List Nat)
  | raw (bytes : List Nat)
  | nothing
deriving DecidableEq, Repr

/-- Lines 244–252 applied to the outcome of the read loop. -/
def reportOf (events : List ReadEvent) : Report :=
  if 0 < (readResult events).2.1 then
    if validUtf8 ((readResult events).1.take (readResult events).2.1) then
      .text ((readResult events).1.take (readResult events).2.1)
    else .raw ((readResult events).1.take (readResult events).2.1)
  else .nothing

/-! ## Client loop iteration (socket_connection.rs, lines 183–259)

One iteration of the `loop` in `main`: create the socket over the static
buffers, set the 10 s timeout, connect, write the request, run the read
loop, print, close, wait 10 s.  The fallible operations are driven by an
oracle (`IterInput`); the iteration's observable behaviour is the action
trace. -/

/-- Result of `socket.write(request.as_bytes())`: `Ok(n)` reports that the
socket accepted `n` bytes (possibly fewer than the request length); the
code matches it as `Ok(_)`, ignoring `n`. -/
inductive WriteRes where
  | ok (n : Nat)
  | err
deriving DecidableEq, Repr

/-- Oracle for one client-loop iteration: whether `connect` succeeds, the
write result (relevant only after a successful connect), and the server's
read events (relevant only after a successful write). -/
structure IterInput where
  connectOk : Bool
  write : WriteRes
  events : List ReadEvent
deriving DecidableEq, Repr

/-- Observable actions of one client-loop iteration. -/
inductive IAction where
  | createSocket
  | setTimeoutSec (s : Nat)
  | connectA (ok : Bool)
  | writeReq (res : WriteRes)
  | readPhase (events : List ReadEvent)
  | reportA (r : Report)
  | closeA
  | waitSec (s : Nat)
deriving DecidableEq, Repr

/-- Whether an action is a request write. -/
def isWriteReq : IAction → Bool
  | .writeReq _ => true
  | _ => false

/-- The trace of one iteration of the client loop (lines 183–259).
Connect failure: log, wait 5 s, `continue` — the socket is dropped, with no
explicit `socket.close()` on this path.  Write failure: `socket.close()`,
wait 5 s, `continue`.  Otherwise: read loop, conditional print, explicit
`socket.close()` (line 254), wait 10 s. -/
def iterTrace (inp : IterInput) : List IAction :=
  [.createSocket, .setTimeoutSec 10] ++
  if !inp.connectOk then
    [.connectA false, .waitSec 5]
  else
    [.connectA true] ++
    match inp.write with
    | .err => [.writeReq .err, .closeA, .waitSec 5]
    | .ok n =>
        [.writeReq (.ok n), .readPhase inp.events] ++
        (if 0 < (readResult inp.events).2.1 then [.reportA (reportOf inp.events)] else []) ++
        [.closeA, .waitSec 10]

/-- The fixed request payload of line 205. -/
def request : String :=
  "GET /health HTTP/1.1\r\nHost: 192.168.1.200:8080\r\nConnection: close\r\n\r\n"

/-- Modelled from the spec's wording (refinement target, not from the
source): a minimal plaintext request — a request line `GET <path> HTTP/1.1`,
a `Host` header, a `Connection: close` directive, terminated by an empty
line. -/
def SpecMinimalRequest (s : String) : Prop :=
  ∃ path host,
    s = "GET " ++ path ++ " HTTP/1.1\r\n" ++ "Host: " ++ host ++ "\r\n" ++
      "Connection: close\r\n" ++ "\r\n"

/-! ## Association manager (socket_connection.rs, lines 42–81)

`connection_task` loops: if the radio is not started, apply the client
configuration and start it (both results are `.unwrap()`ed); attempt
`connect_async`; on failure wait 5000 ms and `continue`; on success poll
`is_connected` every 1000 ms until it fails, then wait 1000 ms and restart
the cycle.  The radio, once started by `start_async`, keeps reporting
started: nothing in the task ever stops it, so `is_started` is `false`
exactly until the first round has run the configure/start block. -/

/-- Observable actions of `connection_task`. -/
inductive CAction where
  | checkStarted (res : Bool)
  | setConfig
  | startRadio
  | connectAttempt (ok : Bool)
  | pollConn (ok : Bool)
  | waitMs (ms : Nat)
  | panicked
deriving DecidableEq, Repr

/-- Oracle outcome of the configure-and-start block (lines 47–56). -/
inductive CfgOutcome where
  | ok
  | cfgFail
  | startFail
deriving DecidableEq, Repr

/-- The configure-and-start block, lines 47–56: `set_config(..).unwrap()`
then `start_async().await.unwrap()`.  Returns the actions performed and
whether the process panicked (an `Err` hit one of the `.unwrap()` calls,
aborting the task — there is no retry on this path). -/
def configStart : CfgOutcome → List CAction × Bool
  | .ok => ([.setConfig, .startRadio], false)
  | .cfgFail => ([.setConfig, .panicked], true)
  | .startFail => ([.setConfig, .startRadio, .panicked], true)

/-- Oracle for one round of the outer loop of `connection_task` (after a
successfully started radio): whether `connect_async` succeeds, and, if so,
how many `is_connected` polls report `true` before the loss is detected. -/
structure Round where
  connectOk : Bool
  stayTicks : Nat
deriving DecidableEq, Repr

/-- The connected-polling loop of lines 72–79: each `is_connected == true`
poll is followed by a 1000 ms wait; the loss poll is followed by a 1000 ms
wait and `break`. -/
def innerLoop : Nat → List CAction
  | 0 => [.pollConn false, .waitMs 1000]
  | k + 1 => .pollConn true :: .waitMs 1000 :: innerLoop k

/-- Lines 59–79: the `connect_async` attempt and its aftermath — 5000 ms
backoff and `continue` on failure, the connected-polling loop on success. -/
def attemptPhase (r : Round) : List CAction :=
  .connectAttempt r.connectOk ::
    (if r.connectOk then innerLoop r.stayTicks else [.waitMs 5000])

/-- One round of the outer loop of `connection_task`, for runs in which the
configure/start block succeeds (its failure panics, see `configStart`):
the `is_started` check, the configure/start block when not yet started,
then the connect attempt phase. -/
def connRound (started : Bool) (r : Round) : List CAction :=
  .checkStarted started ::
    ((if started then [] else [.setConfig, .startRadio]) ++ attemptPhase r)

/-- The action trace of `connection_task` across a finite prefix of rounds;
after the first round the radio reports started. -/
def connTrace : Bool → List Round → List CAction
  | _, [] => []
  | started, r :: rs => connRound started r ++ connTrace true rs

/-- The association states of spec §4.1. -/
inductive AState where
  | unconfigured
  | starting
  | connecting
  | connected
  | disconnected
deriving DecidableEq, Repr

/-- The association states entered when an action runs: starting the radio
enters `Starting`; a connect attempt enters `Connecting` and, on success,
`Connected`; a status poll re-observes `Connected` or detects
`Disconnected`. -/
def emitStates : CAction → List AState
  | .checkStarted _ => []
  | .setConfig => []
  | .startRadio => [.starting]
  | .connectAttempt true => [.connecting, .connected]
  | .connectAttempt false => [.connecting]
  | .pollConn true => [.connected]
  | .pollConn false => [.disconnected]
  | .waitMs _ => []
  | .panicked => []

/-- The association-state sequence observed along an action trace. -/
def statesOf (acts : List CAction) : List AState :=
  (acts.map emitStates).flatten

/-- The documented edge set of spec §4.1: configure/start, radio started,
association success, connect-failure retry, the 1 s connected poll,
disconnect detection, and the restart of the cycle from the
`Unconfigured`/`Starting` check. -/
def legalEdge : AState → AState → Bool
  | .unconfigured, .starting => true
  | .starting, .connecting => true
  | .connecting, .connected => true
  | .connecting, .connecting => true
  | .connected, .connected => true
  | .connected, .disconnected => true
  | .disconnected, .unconfigured => true
  | .disconnected, .connecting => true
  | _, _ => false

/-- Every consecutive pair of states, starting from `prev`, is a legal
edge. -/
def chainOk : AState → List AState → Bool
  | _, [] => true
  | prev, s :: rest => legalEdge prev s && chainOk s rest

/-- Whether a trace continues with a 1000 ms wait. -/
def startsWait1000 : List CAction → Bool
  | .waitMs ms :: _ => ms == 1000
  | _ => false

/-- Every `is_connected` poll in the trace is immediately followed by a
1000 ms wait (the 1 s cadence of lines 72–79, covering both the steady
poll and the wait after a detected loss). -/
def pollWait : List CAction → Bool
  | [] => true
  | .pollConn _ :: rest => startsWait1000 rest && pollWait rest
  | _ :: rest => pollWait rest

/-! ## Link readiness gate (socket_connection.rs, lines 157–174)

Two sequential polling loops over the network stack: first `is_link_up()`
every 500 ms until true, then `config_v4()` every 500 ms until `Some`.
Samples are indexed by scheduler slot; consecutive slots are 500 ms apart
(the `Timer::after(Duration::from_millis(500))` between polls).  There is
no await point between the successful link poll and the first address
poll, so the address loop starts sampling in the same slot. -/

/-- One sampled view of the network stack: `is_link_up()` and whether
`config_v4()` is `Some`. -/
structure NetSample where
  linkUp : Bool
  hasAddr : Bool
deriving DecidableEq, Repr

/-- The first loop (lines 157–163): the earliest slot at or after `k` whose
sample reports link-up, searching at most `fuel` slots. -/
def findLink (σ : Nat → NetSample) : Nat → Nat → Option Nat
  | 0, _ => none
  | fuel + 1, k => if (σ k).linkUp then some k else findLink σ fuel (k + 1)

/-- The second loop (lines 167–174): the earliest slot at or after `k`
whose sample reports an assigned address, searching at most `fuel` slots. -/
def findAddr (σ : Nat → NetSample) : Nat → Nat → Option Nat
  | 0, _ => none
  | fuel + 1, k => if (σ k).hasAddr then some k else findAddr σ fuel (k + 1)

/-- The link readiness gate: run the link-up loop from slot 0, then the
address loop from the slot where the link poll succeeded.  Returns the two
slots at which the gate sampled link-up true and address assigned. -/
def linkGate (σ : Nat → NetSample) (fuel : Nat) : Option (Nat × Nat) :=
  match findLink σ fuel 0 with
  | none => none
  | some i =>
      match findAddr σ fuel i with
      | none => none
      | some j => some (i, j)

/-- A stack behaviour where the link is up (address still unassigned) at
slot 0 and flaps down at slot 1 just as the address appears. -/
def flapTrace : Nat → NetSample :=
  fun k => if k = 0 then ⟨true, false⟩ else ⟨false, true⟩

/-- A stack behaviour that is fully ready from the start. -/
def upTrace : Nat → NetSample :=
  fun _ => ⟨true, true⟩

/-! ## Helper lemmas: the read loop -/

theorem writeAt_length (buf d : List Nat) (total : Nat)
    (h : total + d.length ≤ buf.length) :
    (writeAt buf total d).length = buf.length := by
  simp [writeAt]
  omega

theorem writeAt_take (buf d : List Nat) (total : Nat) (h : total ≤ buf.length) :
    (writeAt buf total d).take (total + d.length) = buf.take total ++ d := by
  have hA : (buf.take total).length = total := by
    simp [List.length_take]
    omega
  simp [writeAt, List.take_append_eq_append_take, hA, List.take_take]

/-- Main invariant of the read loop: starting from a `capacity`-length
buffer with `total ≤ capacity - 2` (the loop guard), the buffer length is
preserved (no write past capacity), the final `total_read` never exceeds
`capacity`, the `full` stop happens exactly when `capacity - 1 ≤ total`,
any other stop leaves `total ≤ capacity - 2`, and the filled prefix is the
initial prefix followed by exactly the delivered bytes. -/
theorem readLoopR_spec (events : List ReadEvent) :
    ∀ (buf : List Nat) (total : Nat), buf.length = capacity → total ≤ capacity - 2 →
      (readLoopR buf total events).1.length = capacity ∧
      (readLoopR buf total events).2.1 ≤ capacity ∧
      ((readLoopR buf total events).2.2 = .full →
        capacity - 1 ≤ (readLoopR buf total events).2.1) ∧
      ((readLoopR buf total events).2.2 ≠ .full →
        (readLoopR buf total events).2.1 ≤ capacity - 2) ∧
      (readLoopR buf total events).1.take (readLoopR buf total events).2.1 =
        buf.take total ++ deliveredBytes total events := by
  induction events with
  | nil =>
    intro buf total hb ht
    simp only [readLoopR, deliveredBytes]
    exact ⟨hb, by omega, by simp, fun _ => ht, by simp⟩
  | cons ev rest ih =>
    intro buf total hb ht
    cases ev with
    | closed =>
      simp only [readLoopR, deliveredBytes]
      exact ⟨hb, by omega, by simp, fun _ => ht, by simp⟩
    | err =>
      simp only [readLoopR, deliveredBytes]
      exact ⟨hb, by omega, by simp, fun _ => ht, by simp⟩
    | data chunk =>
      have hdlen : (chunk.take (capacity - total)).length ≤ capacity - total := by
        simp [List.length_take]
      cases hemp : (chunk.take (capacity - total)).isEmpty with
      | true =>
        simp only [readLoopR, deliveredBytes, hemp, if_true]
        exact ⟨hb, by omega, by simp, fun _ => ht, by simp⟩
      | false =>
        by_cases hfull :
            capacity - 1 ≤ total + (chunk.take (capacity - total)).length
        · have hle : total + (chunk.take (capacity - total)).length ≤ buf.length := by
            omega
          simp only [readLoopR, deliveredBytes, hemp, Bool.false_eq_true, if_false,
            if_pos hfull]
          refine ⟨by rw [writeAt_length _ _ _ hle, hb], by omega, fun _ => hfull,
            by simp, ?_⟩
          rw [hb] at hle
          exact writeAt_take _ _ _ (by omega)
        · have hle : total + (chunk.take (capacity - total)).length ≤ buf.length := by
            omega
          have hb' : (writeAt buf total (chunk.take (capacity - total))).length
              = capacity := by
            rw [writeAt_length _ _ _ hle, hb]
          have ht' : total + (chunk.take (capacity - total)).length ≤ capacity - 2 := by
            have h2c : (2 : Nat) ≤ capacity := by norm_num [capacity]
            omega
          obtain ⟨h1, h2, h3, h4, h5⟩ :=
            ih (writeAt buf total (chunk.take (capacity - total)))
              (total + (chunk.take (capacity - total)).length) hb' ht'
          simp only [readLoopR, deliveredBytes, hemp, Bool.false_eq_true, if_false,
            if_neg hfull]
          refine ⟨h1, h2, h3, h4, ?_⟩
          rw [h5, writeAt_take _ _ _ (by omega), List.append_assoc]

/-! ## Claim theorems: read loop and reporting -/

/-- Claim C2, counterexample: a server that delivers the full remaining
slice in one read pushes `total_read` to the full 1024-byte capacity, not
to capacity − 1 — refuting "it does not accumulate a full capacity's worth
of bytes". -/
theorem read_full_capacity_counterexample :
    (readResult [.data (List.replicate capacity 65)]).2.1 = capacity ∧
    (readResult [.data (List.replicate capacity 65)]).2.1 ≠ capacity - 1 := by
  decide

/-- Claim C2 (amended): the response-read loop never writes past the
1024-byte buffer (its length is preserved) and never panics; it stops
reading as soon as `total_read ≥ capacity − 1`, so the total never exceeds
the full capacity, and equals at least capacity − 1 exactly when the loop
stopped via the fullness guard — but a single large read may land the
total on the full capacity rather than capacity − 1. -/
theorem bounded_read_amended (events : List ReadEvent) :
    (readResult events).1.length = capacity ∧
    (readResult events).2.1 ≤ capacity ∧
    ((readResult events).2.2 = .full → capacity - 1 ≤ (readResult events).2.1) ∧
    ((readResult events).2.2 ≠ .full → (readResult events).2.1 ≤ capacity - 2) := by
  obtain ⟨h1, h2, h3, h4, _⟩ :=
    readLoopR_spec events (List.replicate capacity 0) 0 (by simp)
      (by norm_num [capacity])
  exact ⟨h1, h2, h3, h4⟩

/-- Witness for `bounded_read_amended` at a concrete oversized response. -/
theorem bounded_read_witness :
    (readResult [.data (List.replicate capacity 65)]).2.2 = .full ∧
    capacity - 1 ≤ (readResult [.data (List.replicate capacity 65)]).2.1 :=
  ⟨by decide, (bounded_read_amended [.data (List.replicate capacity 65)]).2.2.1
    (by decide)⟩

/-- Claim C5: the reported response prefix `buf[..total_read]` equals
exactly the bytes delivered by this iteration's reads, for every initial
content of the 1024-byte buffer — so no byte of any prior iteration can
appear in the reported output (the code moreover re-initialises the buffer
to zeroes each iteration, line 220). -/
theorem buffer_reuse_no_leak (init : List Nat) (events : List ReadEvent)
    (h : init.length = capacity) :
    (readLoopR init 0 events).1.take (readLoopR init 0 events).2.1 =
      deliveredBytes 0 events := by
  obtain ⟨_, _, _, _, h5⟩ :=
    readLoopR_spec events init 0 h (by norm_num [capacity])
  simpa using h5

/-- Witness for `buffer_reuse_no_leak`: a buffer full of garbage (7s)
still reports exactly the two bytes the server sent. -/
theorem buffer_reuse_no_leak_witness :
    (readLoopR (List.replicate capacity 7) 0 [.data [72, 105], .closed]).1.take
        (readLoopR (List.replicate capacity 7) 0 [.data [72, 105], .closed]).2.1 =
      deliveredBytes 0 [.data [72, 105], .closed] :=
  buffer_reuse_no_leak (List.replicate capacity 7) [.data [72, 105], .closed]
    (by decide)

/-- Claim C8: the printing step reports nothing when zero bytes were read;
otherwise it reports the received bytes as text when they decode, and the
raw byte sequence when they do not — in no case does a non-text payload
surface as a failure of the iteration. -/
theorem report_best_effort (events : List ReadEvent) :
    reportOf events =
      (if (deliveredBytes 0 events).isEmpty then Report.nothing
       else if validUtf8 (deliveredBytes 0 events) then
         Report.text (deliveredBytes 0 events)
       else Report.raw (deliveredBytes 0 events)) := by
  obtain ⟨h1, h2, _, _, h5⟩ :=
    readLoopR_spec events (List.replicate capacity 0) 0 (by simp)
      (by norm_num [capacity])
  have h5' : (readLoopR (List.replicate capacity 0) 0 events).1.take
      (readLoopR (List.replicate capacity 0) 0 events).2.1 =
      deliveredBytes 0 events := by simpa using h5
  have hlen : (readLoopR (List.replicate capacity 0) 0 events).2.1 =
      (deliveredBytes 0 events).length := by
    have hc := congrArg List.length h5'
    rwa [List.length_take, h1, Nat.min_eq_left h2] at hc
  simp only [reportOf, readResult]
  rw [h5', hlen]
  cases deliveredBytes 0 events with
  | nil => simp
  | cons x xs => simp

/-! ## Claim theorems: client-loop iteration -/

/-- Claim C3, counterexample: on the connect-failure exit path the code
runs `continue` with no `socket.close()` — the trace of such an iteration
contains no explicit close (the endpoint is only dropped implicitly). -/
theorem connect_fail_no_close_counterexample :
    IAction.closeA ∉ iterTrace ⟨false, .ok 0, []⟩ := by decide

/-- Claim C3 (amended): after a successful connect, every exit path —
write failure, read completion, read error — explicitly closes the
endpoint before the iteration ends; on connect failure no explicit close
is performed, the endpoint being dropped implicitly by `continue`. -/
theorem close_on_exit_amended (inp : IterInput) :
    (inp.connectOk = true → IAction.closeA ∈ iterTrace inp) ∧
    (inp.connectOk = false → IAction.closeA ∉ iterTrace inp) := by
  obtain ⟨c, w, ev⟩ := inp
  cases c with
  | false => simp [iterTrace]
  | true =>
    cases w with
    | err => simp [iterTrace]
    | ok n =>
      by_cases h : 0 < (readResult ev).2.1 <;> simp [iterTrace, h]

/-- Witness for `close_on_exit_amended` at a write-failure iteration. -/
theorem close_on_exit_witness :
    IAction.closeA ∈ iterTrace ⟨true, .err, []⟩ :=
  (close_on_exit_amended ⟨true, .err, []⟩).1 rfl

/-- Claim C9: the fixed request payload of line 205 is a minimal plaintext
request: a `GET /health HTTP/1.1` request line, a `Host` header, and a
`Connection: close` directive, terminated by an empty line. -/
theorem request_is_minimal_http : SpecMinimalRequest request :=
  ⟨"/health", "192.168.1.200:8080", rfl⟩

/-- Claim C10: after a successful connect the recovery path (close, 5 s
wait, retry) is taken exactly when the write returns an error.  A write
reporting `Ok(n)` — even with `n` smaller than the request length, e.g.
`n = 0` — is treated as a fully sent request: the iteration proceeds to
the read phase, performs no second write, and takes no recovery backoff. -/
theorem write_success_no_retry (inp : IterInput) (h : inp.connectOk = true) :
    (∀ n, inp.write = .ok n →
      IAction.readPhase inp.events ∈ iterTrace inp ∧
      (iterTrace inp).countP isWriteReq = 1 ∧
      IAction.waitSec 5 ∉ iterTrace inp) ∧
    (inp.write = .err →
      iterTrace inp = [.createSocket, .setTimeoutSec 10, .connectA true,
        .writeReq .err, .closeA, .waitSec 5]) := by
  obtain ⟨c, w, ev⟩ := inp
  subst h
  cases w with
  | err => simp [iterTrace]
  | ok n =>
    refine ⟨?_, by simp⟩
    intro m hm
    by_cases hr : 0 < (readResult ev).2.1 <;>
      simp [iterTrace, hr, isWriteReq, List.countP_cons, List.countP_append]

/-- Witness for `write_success_no_retry`: a zero-byte accepted write still
proceeds straight to the read phase with no retry. -/
theorem write_success_no_retry_witness :
    IAction.readPhase [] ∈ iterTrace ⟨true, .ok 0, []⟩ ∧
    IAction.waitSec 5 ∉ iterTrace ⟨true, .ok 0, []⟩ :=
  ⟨((write_success_no_retry ⟨true, .ok 0, []⟩ rfl).1 0 rfl).1,
   ((write_success_no_retry ⟨true, .ok 0, []⟩ rfl).1 0 rfl).2.2⟩

/-! ## Helper lemmas: association manager -/

theorem statesOf_append (a b : List CAction) :
    statesOf (a ++ b) = statesOf a ++ statesOf b := by
  simp [statesOf]

theorem statesOf_cons (a : CAction) (l : List CAction) :
    statesOf (a :: l) = emitStates a ++ statesOf l := by
  simp [statesOf]

theorem statesOf_innerLoop (k : Nat) :
    statesOf (innerLoop k) = List.replicate k .connected ++ [.disconnected] := by
  induction k with
  | zero => simp [innerLoop, statesOf, emitStates]
  | succ k ih =>
    rw [innerLoop, statesOf_cons, statesOf_cons, ih]
    simp [emitStates, List.replicate_succ]

theorem statesOf_attemptPhase_false (r : Round) (hc : r.connectOk = false) :
    statesOf (attemptPhase r) = [.connecting] := by
  simp [attemptPhase, hc, statesOf, emitStates]

theorem statesOf_attemptPhase_true (r : Round) (hc : r.connectOk = true) :
    statesOf (attemptPhase r) =
      .connecting :: .connected ::
        (List.replicate r.stayTicks .connected ++ [.disconnected]) := by
  have h1 : attemptPhase r = .connectAttempt true :: innerLoop r.stayTicks := by
    simp [attemptPhase, hc]
  rw [h1, statesOf_cons, statesOf_innerLoop]
  simp [emitStates]

theorem chainOk_connected_run (k : Nat) (tail : List AState) :
    chainOk .connected (List.replicate k .connected ++ .disconnected :: tail) =
      chainOk .disconnected tail := by
  induction k with
  | zero => simp [chainOk, legalEdge]
  | succ k ih => simp [List.replicate_succ, chainOk, legalEdge, ih]

theorem chainOk_attempt_then (r : Round) (rs : List Round) (prev : AState)
    (h : legalEdge prev .connecting = true)
    (hrs : ∀ p : AState, legalEdge p .connecting = true →
      chainOk p (statesOf (connTrace true rs)) = true) :
    chainOk prev (statesOf (attemptPhase r) ++ statesOf (connTrace true rs)) = true := by
  cases hc : r.connectOk with
  | false =>
    rw [statesOf_attemptPhase_false r hc, List.singleton_append]
    simp only [chainOk, h, Bool.true_and]
    exact hrs .connecting rfl
  | true =>
    rw [statesOf_attemptPhase_true r hc]
    simp only [List.cons_append, List.append_assoc, List.singleton_append]
    simp only [chainOk, h, Bool.true_and,
      show legalEdge AState.connecting AState.connected = true from rfl]
    rw [chainOk_connected_run]
    exact hrs .disconnected rfl

theorem chainOk_connTrace (rounds : List Round) :
    ∀ prev : AState, legalEdge prev .connecting = true →
      chainOk prev (statesOf (connTrace true rounds)) = true := by
  induction rounds with
  | nil => intro prev _; simp [connTrace, statesOf, chainOk]
  | cons r rs ih =>
    intro prev h
    have h1 : connTrace true (r :: rs) = connRound true r ++ connTrace true rs := rfl
    have h2 : connRound true r = .checkStarted true :: attemptPhase r := by
      simp [connRound]
    rw [h1, h2, statesOf_append, statesOf_cons]
    simp only [emitStates, List.nil_append]
    exact chainOk_attempt_then r rs prev h ih

theorem pollWait_innerLoop (k : Nat) (rest : List CAction) :
    pollWait (innerLoop k ++ rest) = pollWait rest := by
  induction k with
  | zero => simp [innerLoop, pollWait, startsWait1000]
  | succ k ih => simp [innerLoop, pollWait, startsWait1000, ih]

theorem pollWait_connTrace (rounds : List Round) :
    ∀ s : Bool, pollWait (connTrace s rounds) = true := by
  induction rounds with
  | nil => intro s; simp [connTrace, pollWait]
  | cons r rs ih =>
    intro s
    have h1 : connTrace s (r :: rs) = connRound s r ++ connTrace true rs := rfl
    rw [h1]
    cases s <;> cases hc : r.connectOk <;>
      simp [connRound, attemptPhase, hc, pollWait, startsWait1000,
        pollWait_innerLoop, ih]

theorem no_config_innerLoop (k : Nat) :
    CAction.setConfig ∉ innerLoop k ∧ CAction.startRadio ∉ innerLoop k := by
  induction k with
  | zero => simp [innerLoop]
  | succ k ih =>
    obtain ⟨i1, i2⟩ := ih
    simp [innerLoop, i1, i2]

theorem connRound_failed (r : Round) (hr : r.connectOk = false) :
    connRound true r = [.checkStarted true, .connectAttempt false, .waitMs 5000] := by
  simp [connRound, attemptPhase, hr]

theorem no_config_connTrace (rounds : List Round) :
    CAction.setConfig ∉ connTrace true rounds ∧
    CAction.startRadio ∉ connTrace true rounds := by
  induction rounds with
  | nil => simp [connTrace]
  | cons r rs ih =>
    obtain ⟨i1, i2⟩ := ih
    obtain ⟨j1, j2⟩ := no_config_innerLoop r.stayTicks
    cases hc : r.connectOk <;>
      simp [connTrace, connRound, attemptPhase, hc, i1, i2, j1, j2]

/-! ## Claim theorems: association manager -/

/-- Claim C1, counterexample: a rejected `set_config` hits the `.unwrap()`
of line 53 — the task panics and the process terminates; no 5-second
backoff and no retry happen on this path, contradicting "a
set-configuration or start failure is logged and retried ... rather than
crashing". -/
theorem cfg_fail_panics_counterexample :
    (configStart .cfgFail).2 = true ∧
    CAction.waitMs 5000 ∉ (configStart .cfgFail).1 := by decide

/-- Claim C1 (amended): connect failures are recovered — a 5000 ms backoff
followed by a retry round, never propagated upward — but a
set-configuration or radio-start failure is not recovered: both results
are `.unwrap()`ed (lines 53 and 55), panicking and terminating the
process. -/
theorem assoc_error_recovery_amended :
    (∀ o : CfgOutcome, o ≠ .ok → (configStart o).2 = true) ∧
    (∀ r : Round, r.connectOk = false →
      connRound true r =
        [.checkStarted true, .connectAttempt false, .waitMs 5000]) := by
  constructor
  · intro o ho
    cases o with
    | ok => exact absurd rfl ho
    | cfgFail => rfl
    | startFail => rfl
  · exact connRound_failed

/-- Witness for `assoc_error_recovery_amended`: a start failure panics; a
failed connect round is check, attempt, 5 s backoff. -/
theorem assoc_error_recovery_witness :
    (configStart .startFail).2 = true ∧
    connRound true ⟨false, 0⟩ =
      [.checkStarted true, .connectAttempt false, .waitMs 5000] :=
  ⟨assoc_error_recovery_amended.1 .startFail (by decide),
   assoc_error_recovery_amended.2 ⟨false, 0⟩ rfl⟩

/-- Claim C6: over every finite run of `connection_task` (with the
configure/start block succeeding — its failure panics, see C1), the
observed association-state sequence starting from `Unconfigured` only ever
moves along the documented edges of §4.1 (in particular never
`Disconnected → Connected` directly), and every `is_connected` poll —
including the one that detects the loss — is followed by a 1000 ms wait
before the cycle restarts at the `Unconfigured`/`Starting` check. -/
theorem state_machine_legal (rounds : List Round) :
    chainOk .unconfigured (statesOf (connTrace false rounds)) = true ∧
    pollWait (connTrace false rounds) = true := by
  refine ⟨?_, pollWait_connTrace rounds false⟩
  cases rounds with
  | nil => simp [connTrace, statesOf, chainOk]
  | cons r rs =>
    have h1 : connTrace false (r :: rs) = connRound false r ++ connTrace true rs := rfl
    have h2 : connRound false r =
        [.checkStarted false, .setConfig, .startRadio] ++ attemptPhase r := by
      simp [connRound]
    have h3 : statesOf [CAction.checkStarted false, .setConfig, .startRadio] =
        [.starting] := by
      simp [statesOf, emitStates]
    rw [h1, h2, statesOf_append, statesOf_append, h3, List.append_assoc,
      List.singleton_append]
    simp only [chainOk, Bool.true_and, show legalEdge .unconfigured .starting = true from rfl]
    exact chainOk_attempt_then r rs .starting rfl (chainOk_connTrace rs)

/-- Claim C7: when `connect_async` fails the task backs off 5000 ms and
retries; because `is_started` is checked before re-issuing configuration,
no round with the radio already started re-applies the client
configuration or restarts the radio — the retry goes from the
started-check directly to the next connect attempt. -/
theorem connect_retry_no_reconfig (r : Round) (rs : List Round)
    (h : r.connectOk = false) :
    connTrace true (r :: rs) =
      [.checkStarted true, .connectAttempt false, .waitMs 5000] ++
        connTrace true rs ∧
    CAction.setConfig ∉ connTrace true (r :: rs) ∧
    CAction.startRadio ∉ connTrace true (r :: rs) ∧
    (∀ r2 rs2, rs = r2 :: rs2 →
      (connTrace true rs).take 2 =
        [.checkStarted true, .connectAttempt r2.connectOk]) := by
  obtain ⟨n1, n2⟩ := no_config_connTrace (r :: rs)
  refine ⟨?_, n1, n2, ?_⟩
  · have h1 : connTrace true (r :: rs) = connRound true r ++ connTrace true rs := rfl
    rw [h1, connRound_failed r h]
  · intro r2 rs2 hrs
    subst hrs
    have h1 : connTrace true (r2 :: rs2) = connRound true r2 ++ connTrace true rs2 := rfl
    have h2 : connRound true r2 =
        .checkStarted true :: .connectAttempt r2.connectOk ::
          (if r2.connectOk then innerLoop r2.stayTicks else [.waitMs 5000]) := by
      simp [connRound, attemptPhase]
    rw [h1, h2]
    simp

/-- Witness for `connect_retry_no_reconfig` at a single failed round. -/
theorem connect_retry_no_reconfig_witness :
    connTrace true [⟨false, 0⟩] =
      [.checkStarted true, .connectAttempt false, .waitMs 5000] ++
        connTrace true [] ∧
    CAction.setConfig ∉ connTrace true [⟨false, 0⟩] :=
  ⟨(connect_retry_no_reconfig ⟨false, 0⟩ [] rfl).1,
   (connect_retry_no_reconfig ⟨false, 0⟩ [] rfl).2.1⟩

/-! ## Helper lemmas: link readiness gate -/

theorem findLink_spec (σ : Nat → NetSample) :
    ∀ (fuel k i : Nat), findLink σ fuel k = some i →
      k ≤ i ∧ (σ i).linkUp = true ∧
      ∀ m, k ≤ m → m < i → (σ m).linkUp = false := by
  intro fuel
  induction fuel with
  | zero => intro k i h; simp [findLink] at h
  | succ fuel ih =>
    intro k i h
    rw [findLink] at h
    by_cases hl : (σ k).linkUp = true
    · rw [if_pos hl] at h
      obtain rfl : k = i := by simpa using h
      exact ⟨Nat.le_refl k, hl, fun m hm1 hm2 => absurd hm1 (by omega)⟩
    · rw [if_neg hl] at h
      obtain ⟨h1, h2, h3⟩ := ih (k + 1) i h
      refine ⟨by omega, h2, ?_⟩
      intro m hm1 hm2
      rcases Nat.eq_or_lt_of_le hm1 with rfl | hlt
      · exact Bool.not_eq_true _ |>.mp hl
      · exact h3 m (by omega) hm2

theorem findAddr_spec (σ : Nat → NetSample) :
    ∀ (fuel k j : Nat), findAddr σ fuel k = some j →
      k ≤ j ∧ (σ j).hasAddr = true ∧
      ∀ m, k ≤ m → m < j → (σ m).hasAddr = false := by
  intro fuel
  induction fuel with
  | zero => intro k j h; simp [findAddr] at h
  | succ fuel ih =>
    intro k j h
    rw [findAddr] at h
    by_cases hl : (σ k).hasAddr = true
    · rw [if_pos hl] at h
      obtain rfl : k = j := by simpa using h
      exact ⟨Nat.le_refl k, hl, fun m hm1 hm2 => absurd hm1 (by omega)⟩
    · rw [if_neg hl] at h
      obtain ⟨h1, h2, h3⟩ := ih (k + 1) j h
      refine ⟨by omega, h2, ?_⟩
      intro m hm1 hm2
      rcases Nat.eq_or_lt_of_le hm1 with rfl | hlt
      · exact Bool.not_eq_true _ |>.mp hl
      · exact h3 m (by omega) hm2

/-! ## Claim theorems: link readiness gate -/

/-- Claim C4, counterexample: under a link flap — link up with no address
at slot 0, link down with the address assigned at slot 1 — the gate
releases the caller after sampling exactly slots 0 and 1, yet at neither
sampled instant were link-up and address-assignment simultaneously true,
refuting "never releases the caller before link-up and address-assignment
are both true at a single sampled instant". -/
theorem gate_flap_counterexample :
    linkGate flapTrace 2 = some (0, 1) ∧
    ((flapTrace 0).linkUp && (flapTrace 0).hasAddr) = false ∧
    ((flapTrace 1).linkUp && (flapTrace 1).hasAddr) = false := by decide

/-- Claim C4 (amended): the gate polls link-up at a 500 ms cadence and
releases only after it has sampled link-up true at some slot `i` (the
first such slot) and, polling address assignment from that same slot at
the same cadence with no overall timeout, address-assignment true at some
slot `j ≥ i` (the first such).  The two observations are made at distinct
sampled instants in general; only when the address is already assigned in
the link-up slot (`j = i`) do both hold at a single instant, so the
release does not guarantee simultaneous truth. -/
theorem gate_release_amended (σ : Nat → NetSample) (fuel i j : Nat)
    (h : linkGate σ fuel = some (i, j)) :
    (σ i).linkUp = true ∧ (σ j).hasAddr = true ∧ i ≤ j ∧
    (∀ k, k < i → (σ k).linkUp = false) ∧
    (∀ k, i ≤ k → k < j → (σ k).hasAddr = false) := by
  unfold linkGate at h
  cases hf : findLink σ fuel 0 with
  | none => simp [hf] at h
  | some i' =>
    cases ha : findAddr σ fuel i' with
    | none => simp [hf, ha] at h
    | some j' =>
      simp only [hf, ha] at h
      obtain ⟨h1, h2⟩ : i' = i ∧ j' = j := by
        simpa [Prod.ext_iff] using h
      subst h1
      subst h2
      obtain ⟨_, hl, hlmin⟩ := findLink_spec σ fuel 0 i' hf
      obtain ⟨hij, hA, hamin⟩ := findAddr_spec σ fuel i' j' ha
      exact ⟨hl, hA, hij, fun k hk => hlmin k (Nat.zero_le k) hk, hamin⟩

/-- Witness for `gate_release_amended` on an immediately-ready stack. -/
theorem gate_release_witness :
    (upTrace 0).linkUp = true ∧ (upTrace 0).hasAddr = true :=
  ⟨(gate_release_amended upTrace 1 0 0 (by decide)).1,
   (gate_release_amended upTrace 1 0 0 (by decide)).2.1⟩



